import Mathlib

/-!
Verification of the BSM structure fetcher (`src/bsm-fetcher.py`).

The development shallowly embeds the two core components of the script:

* `fetch_api_with_retry` (lines 61-142): the status-code-aware retry loop,
  modelled as a function of the sequence of per-attempt outcomes, recording
  the returned attempt, the sleeps performed, and the number of HTTP
  requests made.
* `get_structure_by_organization` (lines 144-283): the per-organization
  aggregation of decoded match records into a league/team/club tree.
  Decoded JSON is modelled by the inductive type `J`; Python dictionaries
  are association lists, and Python truthiness is the function `truthy`.

plus the orchestration loop `build_structure` (lines 285-351) and the
snapshot writer `save_structure` (lines 353-409), the latter as a small
file-system state machine.
-/

set_option maxHeartbeats 1600000
set_option linter.unnecessarySeqFocus false

namespace BSM

/-- JSON values as produced by `response.json()`.  Objects are association
lists of string keys (Python dictionaries preserve insertion order). -/
inductive J where
  | null : J
  | bool (b : Bool) : J
  | num (n : Int) : J
  | str (s : String) : J
  | arr (elems : List J) : J
  | obj (fields : List (String × J)) : J

mutual

/-- Boolean structural equality of JSON values. -/
def jeq : J → J → Bool
  | .null, .null => true
  | .bool a, .bool b => a == b
  | .num a, .num b => a == b
  | .str a, .str b => a == b
  | .arr xs, .arr ys => jeqL xs ys
  | .obj fs, .obj gs => jeqF fs gs
  | _, _ => false

/-- Boolean equality of JSON arrays. -/
def jeqL : List J → List J → Bool
  | [], [] => true
  | x :: xs, y :: ys => jeq x y && jeqL xs ys
  | _, _ => false

/-- Boolean equality of JSON object field lists. -/
def jeqF : List (String × J) → List (String × J) → Bool
  | [], [] => true
  | (k, v) :: xs, (l, w) :: ys => k == l && jeq v w && jeqF xs ys
  | _, _ => false

end

theorem jeq_iff : ∀ a b : J, jeq a b = true ↔ a = b :=
  @J.rec (fun a => ∀ b, jeq a b = true ↔ a = b)
    (fun xs => ∀ ys, jeqL xs ys = true ↔ xs = ys)
    (fun fs => ∀ gs, jeqF fs gs = true ↔ fs = gs)
    (fun p => ∀ q, (p.1 == q.1 && jeq p.2 q.2) = true ↔ p = q)
    (by intro b; cases b <;> simp [jeq])
    (by intro a b; cases b <;> simp [jeq])
    (by intro a b; cases b <;> simp [jeq])
    (by intro a b; cases b <;> simp [jeq])
    (by intro xs ih b; cases b <;> simp [jeq, ih])
    (by intro fs ih b; cases b <;> simp [jeq, ih])
    (by intro ys; cases ys <;> simp [jeqL])
    (by intro x xs ihx ihxs ys; cases ys <;> simp [jeqL, ihx, ihxs])
    (by intro gs; cases gs <;> simp [jeqF])
    (by
      intro p fs ihp ihfs gs
      cases gs with
      | nil => obtain ⟨k, v⟩ := p; simp [jeqF]
      | cons q gs =>
        obtain ⟨k, v⟩ := p
        obtain ⟨l, w⟩ := q
        have hv : jeq v w = true ↔ v = w := by simpa using ihp (k, w)
        simp [jeqF, hv, ihfs, and_assoc]
    )
    (by intro k v ih q; obtain ⟨l, w⟩ := q; simp [ih])

instance : DecidableEq J := fun a b =>
  decidable_of_iff (jeq a b = true) (jeq_iff a b)

/-- Python truthiness of a decoded JSON value: `None`, `False`, `0`, `""`,
`[]` and `{}` are falsy, everything else is truthy. -/
def truthy : J → Bool
  | .null => false
  | .bool b => b
  | .num n => n != 0
  | .str s => !s.isEmpty
  | .arr xs => !xs.isEmpty
  | .obj fs => !fs.isEmpty

/-- Lookup in an association list, as Python's `dict.get` / `dict[k]`
(first binding wins; dictionaries built by the script have unique keys). -/
def dget {K V : Type} [DecidableEq K] : List (K × V) → K → Option V
  | [], _ => none
  | (k, v) :: rest, key => if k = key then some v else dget rest key

/-- Update in an association list, as Python's `d[k] = v`: an existing key
keeps its position and gets the new value, a new key is appended at the
end (insertion-order semantics of Python dictionaries). -/
def dset {K V : Type} [DecidableEq K] : List (K × V) → K → V → List (K × V)
  | [], k, v => [(k, v)]
  | (k', v') :: rest, k, v =>
      if k' = k then (k, v) :: rest else (k', v') :: dset rest k v

/-! ## The resilient fetcher (`fetch_api_with_retry`, lines 61-142) -/

/-- Configuration constant `MAX_RETRIES` (line 13). -/
def MAX_RETRIES : Nat := 3

/-- Configuration constant `RETRY_DELAY` (line 14), in seconds. -/
def RETRY_DELAY : Nat := 10

/-- Outcome of a single `requests.get` attempt: an HTTP status code, or one
of the three exception classes the source handles (lines 120-140). -/
inductive AttemptOutcome where
  | status (code : Nat)
  | timeout
  | connError
  | reqError
deriving DecidableEq, Repr

/-- Observable trace of one `fetch_api_with_retry` call: `result` is the
1-based index of the attempt whose response was returned (`none` when the
call returned `None`), `sleeps` the successive `time.sleep` durations, and
`requests` the number of HTTP requests issued. -/
structure FetchTrace where
  result : Option Nat
  sleeps : List Nat
  requests : Nat
deriving DecidableEq, Repr

/-- One step of the retry loop of `fetch_api_with_retry` (lines 73-142).
`attempt` is the 1-based loop counter, `rem` the number of loop iterations
still available (including the current one); attempt `i` observes the
outcome `outs[i-1]`.  Status handling mirrors the source exactly: 200
returns; 429/503/>=500 sleep `RETRY_DELAY * attempt` and retry while
`attempt < max_retries`; 404 returns `None` at once; any other status in
400..599 makes `raise_for_status()` raise `HTTPError`, which the
`RequestException` handler (lines 138-140) turns into an immediate `None`;
for the remaining statuses (1xx, 2xx other than 200, 3xx)
`raise_for_status()` is a no-op and the loop silently moves to the next
attempt with no sleep.  Timeouts and connection errors sleep the fixed
`RETRY_DELAY` and retry; other request exceptions return `None` at once.
Falling off the loop returns `None` (line 142). -/
def fetchGo (outs : List AttemptOutcome) : Nat → Nat → FetchTrace
  | _, 0 => ⟨none, [], 0⟩
  | attempt, rem + 1 =>
    match outs.getD (attempt - 1) .reqError with
    | .status c =>
      if c = 200 then ⟨some attempt, [], 1⟩
      else if c = 429 ∨ c = 503 ∨ 500 ≤ c then
        if 0 < rem then
          let t := fetchGo outs (attempt + 1) rem
          ⟨t.result, RETRY_DELAY * attempt :: t.sleeps, t.requests + 1⟩
        else ⟨none, [], 1⟩
      else if c = 404 then ⟨none, [], 1⟩
      else if 400 ≤ c then ⟨none, [], 1⟩
      else
        let t := fetchGo outs (attempt + 1) rem
        ⟨t.result, t.sleeps, t.requests + 1⟩
    | .timeout =>
      if 0 < rem then
        let t := fetchGo outs (attempt + 1) rem
        ⟨t.result, RETRY_DELAY :: t.sleeps, t.requests + 1⟩
      else ⟨none, [], 1⟩
    | .connError =>
      if 0 < rem then
        let t := fetchGo outs (attempt + 1) rem
        ⟨t.result, RETRY_DELAY :: t.sleeps, t.requests + 1⟩
      else ⟨none, [], 1⟩
    | .reqError => ⟨none, [], 1⟩

/-- The retry loop `fetch_api_with_retry(url, org_name, max_retries)`
(lines 61-142), as a function of the per-attempt outcomes. -/
def fetch_api_with_retry (max_retries : Nat) (outs : List AttemptOutcome) :
    FetchTrace :=
  fetchGo outs 1 max_retries

/-! ## The match aggregator (`get_structure_by_organization`, lines 144-283) -/

/-- The repeated guard pattern `x and isinstance(x, dict)` (lines 189, 204,
206, 239, 241): yields the fields of `x` when `x` is a truthy dictionary
(an empty dictionary is falsy in Python and is skipped by the guard). -/
def truthyObj : Option J → Option (List (String × J))
  | some (J.obj fs) => if fs.isEmpty then none else some fs
  | _ => none

/-- A team dictionary `team_data` as built at lines 210-233: an association
list with keys `id`, `name` and optionally `club` or `clubs`. -/
abbrev TeamD : Type := List (String × J)

/-- The club record appended at lines 222-228 / 257-263: a dictionary of
the five passthrough fields, each `club.get(...)` (missing becomes null). -/
def mkClub (cf : List (String × J)) : J :=
  J.obj [("id", (dget cf "id").getD J.null),
         ("name", (dget cf "name").getD J.null),
         ("acronym", (dget cf "acronym").getD J.null),
         ("short_name", (dget cf "short_name").getD J.null),
         ("logo_url", (dget cf "logo_url").getD J.null)]

/-- The `clubs_list` built at lines 216-228: the team's `clubs` value is
used only when it is a non-empty JSON array (`clubs and
isinstance(clubs, list) and len(clubs) > 0`), and each array element that
is a dictionary contributes one club record, in array order, with no
deduplication. -/
def clubsListOf (team : List (String × J)) : List J :=
  match dget team "clubs" with
  | some (J.arr cs) =>
      if cs.isEmpty then []
      else cs.filterMap (fun c =>
        match c with
        | J.obj cf => some (mkClub cf)
        | _ => none)
  | _ => []

/-- The team snapshot `team_data` of lines 210-233 (identically 245-268):
`id` and `name` always, then `club` when `clubs_list` has exactly one
element, `clubs` when it has more than one, neither when it is empty. -/
def mkTeamData (tid : J) (team : List (String × J)) : TeamD :=
  let base : TeamD := [("id", tid), ("name", (dget team "name").getD J.null)]
  match clubsListOf team with
  | [] => base
  | [c] => base ++ [("club", c)]
  | cs => base ++ [("clubs", J.arr cs)]

/-- Resolution of one side entry (lines 203-209 / 238-244): the entry must
be a truthy dictionary, its `team` a truthy dictionary, and the team `id`
truthy; the result is the key/snapshot pair written into the league's team
map, `none` when the side is skipped. -/
def sideSnap (entry : Option J) : Option (J × TeamD) :=
  match truthyObj entry with
  | none => none
  | some e =>
    match truthyObj (dget e "team") with
    | none => none
    | some team =>
      match dget team "id" with
      | some tid => if truthy tid then some (tid, mkTeamData tid team) else none
      | none => none

/-- Processing of one side entry against a league's team map (lines
202-235 for the home side, 237-270 for the away side):
`leagues_dict[league_id]['teams'][team_id] = team_data` when the side
resolves, no change otherwise. -/
def processEntry (teams : List (J × TeamD)) (entry : Option J) :
    List (J × TeamD) :=
  match sideSnap entry with
  | some (tid, td) => dset teams tid td
  | none => teams

/-- A value of `leagues_dict` (line 161): `{'id': ..., 'name': ...,
'teams': {team_id: team_data}}`. -/
structure LeagueRec where
  id : J
  name : J
  teams : List (J × TeamD)
deriving DecidableEq

/-- The `home_league_entry` value of a match dictionary (line 203). -/
def homeOf (mf : List (String × J)) : Option J := dget mf "home_league_entry"

/-- The `away_league_entry` value of a match dictionary (line 238). -/
def awayOf (mf : List (String × J)) : Option J := dget mf "away_league_entry"

/-- Team-map effect of one match on its league: home side first (lines
202-235), then away side (lines 237-270). -/
def ingestTeams (mf : List (String × J)) (ts : List (J × TeamD)) :
    List (J × TeamD) :=
  processEntry (processEntry ts (homeOf mf)) (awayOf mf)

/-- Pointwise update of the `teams` component of the league stored at key
`k` (the in-place mutation `leagues_dict[league_id]['teams'][...] = ...`). -/
def updTeams (ld : List (J × LeagueRec)) (k : J)
    (f : List (J × TeamD) → List (J × TeamD)) : List (J × LeagueRec) :=
  ld.map (fun p =>
    match p with
    | (a, r) => if a = k then (a, ⟨r.id, r.name, f r.teams⟩) else (a, r))

/-- Processing of one match record (lines 183-270): skip non-dictionaries;
require a truthy dictionary `league` with truthy `id`; create the league
entry on first sight (storing `league.get('name')`), then ingest the home
and away sides into the league's team map. -/
def processMatch (ld : List (J × LeagueRec)) (m : J) : List (J × LeagueRec) :=
  match m with
  | J.obj mf =>
    match truthyObj (dget mf "league") with
    | some league =>
      match dget league "id" with
      | some lid =>
        if truthy lid then
          let ld1 := if (dget ld lid).isSome then ld
                     else ld ++ [(lid, ⟨lid, (dget league "name").getD J.null, []⟩)]
          updTeams ld1 lid (ingestTeams mf)
        else ld
      | none => ld
    | none => ld
  | _ => ld

/-- The aggregation loop over all matches (lines 182-270), starting from
the empty `leagues_dict`. -/
def aggregate (ms : List J) : List (J × LeagueRec) :=
  ms.foldl processMatch []

/-- Rank used to totalise the comparison of sort keys across JSON types.
Python's `sort` raises `TypeError` when keys mix types; team ids are
numeric in practice, and the embedding orders distinct type classes by
rank so that the comparison is total. -/
def jrank : J → Nat
  | .null => 0
  | .bool _ => 1
  | .num _ => 2
  | .str _ => 3
  | .arr _ => 4
  | .obj _ => 5

/-- Total comparison of JSON sort keys: numbers by value, strings
lexicographically (as Python does for homogeneous keys), different type
classes by rank. -/
def jleB (a b : J) : Bool :=
  if jrank a < jrank b then true
  else if jrank b < jrank a then false
  else
    match a, b with
    | .num x, .num y => decide (x ≤ y)
    | .str x, .str y => decide (x ≤ y)
    | .bool x, .bool y => !x || y
    | _, _ => true

/-- The sort key of line 276: `lambda x: x.get('id', 0)`. -/
def teamSortKey (td : TeamD) : J := (dget td "id").getD (J.num 0)

/-- Ordering of team dictionaries by their sort key. -/
def teamLE (a b : TeamD) : Prop := jleB (teamSortKey a) (teamSortKey b) = true

instance : DecidableRel teamLE := fun _ _ =>
  inferInstanceAs (Decidable (_ = true))

theorem jleB_total (a b : J) : jleB a b = true ∨ jleB b a = true := by
  cases a <;> cases b <;>
    simp [jleB, jrank] <;>
    first
      | omega
      | exact le_total _ _
      | exact Int.le_total _ _
      | (rename_i x y; cases x <;> cases y <;> simp)

theorem jleB_trans (a b c : J) (h1 : jleB a b = true) (h2 : jleB b c = true) :
    jleB a c = true := by
  cases a <;> cases b <;> cases c <;>
    simp_all [jleB, jrank] <;>
    first
      | omega
      | exact le_trans h1 h2
      | (rename_i x y z; cases x <;> cases y <;> cases z <;> simp_all)

instance : IsTotal TeamD teamLE :=
  ⟨fun a b => jleB_total (teamSortKey a) (teamSortKey b)⟩

instance : IsTrans TeamD teamLE :=
  ⟨fun a b c => jleB_trans (teamSortKey a) (teamSortKey b) (teamSortKey c)⟩

/-- A finalized league as emitted at lines 272-283: `teams` is now an
ordered list of team dictionaries. -/
structure LeagueOut where
  id : J
  name : J
  teams : List TeamD
deriving DecidableEq

/-- Finalization of one league (lines 272-277): take the team map's values
in insertion order (`list(dict.values())`) and sort them by the key
`x.get('id', 0)` with Python's stable sort. -/
def finalizeLeague (r : LeagueRec) : LeagueOut :=
  ⟨r.id, r.name, List.insertionSort teamLE (r.teams.map Prod.snd)⟩

/-- Aggregated output of `get_structure_by_organization` for a decoded
match list: the `leagues` mapping of the returned dictionary. -/
def aggregateOut (ms : List J) : List (J × LeagueOut) :=
  (aggregate ms).map (fun p => (p.1, finalizeLeague p.2))

/-- Result of the fetch-and-decode prefix of
`get_structure_by_organization` (lines 163-180): the fetch may fail
(`response is None`), the body may fail to parse, or it parses to a JSON
value. -/
inductive ApiResult where
  | fetchFailed
  | badJson
  | decoded (v : J)

/-- The function `get_structure_by_organization` (lines 144-283), as a
function of the fetch/decode result: a failed fetch, an invalid JSON body,
or a non-array body all yield zero leagues; an array body is aggregated. -/
def get_structure_by_organization (r : ApiResult) : List (J × LeagueOut) :=
  match r with
  | .fetchFailed => []
  | .badJson => []
  | .decoded (J.arr ms) => aggregateOut ms
  | .decoded _ => []

/-! ## The structure builder (`build_structure`, lines 285-351) -/

/-- Result of processing one organization inside the `try` of
`build_structure`: either `get_structure_by_organization` returned its
league mapping, or an exception was raised and caught at lines 338-345. -/
inductive OrgOutcome where
  | ok (leagues : List (J × LeagueOut))
  | exn (msg : String)
deriving DecidableEq

/-- One entry of `structure['organizations']` (lines 318-321 / 340-344):
the organization id, its league mapping, and the `'error'` annotation
present only on the exception path. -/
structure OrgEntry where
  id : String
  leagues : List (J × LeagueOut)
  error : Option String
deriving DecidableEq

/-- The `metadata` counters of the output document (lines 299-304). -/
structure BuildMeta where
  total_organizations : Nat
  successful_organizations : Nat
  failed_organizations : Nat
deriving DecidableEq

/-- The output document of `build_structure` (year and `generated_at` are
boundary data and not modelled). -/
structure StructureDoc where
  organizations : List (String × OrgEntry)
  metadata : BuildMeta
deriving DecidableEq

/-- The entry recorded for one organization: lines 318-329 on the normal
path (league mapping copied verbatim, no error key), lines 340-344 on the
exception path (empty league mapping, error annotation). -/
def orgEntryFor (oid : String) (o : OrgOutcome) : OrgEntry :=
  match o with
  | .ok ls => ⟨oid, ls, none⟩
  | .exn m => ⟨oid, [], some m⟩

/-- One iteration of the loop of `build_structure` (lines 311-349):
record the organization's entry and bump `successful_organizations`
exactly when the league mapping is non-empty (lines 331-336), otherwise
`failed_organizations`; an exception caught at lines 338-345 also counts
as failed. -/
def buildStep (oracle : String → String → OrgOutcome) (st : StructureDoc)
    (p : String × String) : StructureDoc :=
  match oracle p.1 p.2 with
  | .ok ls =>
      ⟨dset st.organizations p.1 ⟨p.2, ls, none⟩,
       if ls.isEmpty then
         ⟨st.metadata.total_organizations,
          st.metadata.successful_organizations,
          st.metadata.failed_organizations + 1⟩
       else
         ⟨st.metadata.total_organizations,
          st.metadata.successful_organizations + 1,
          st.metadata.failed_organizations⟩⟩
  | .exn m =>
      ⟨dset st.organizations p.1 ⟨p.2, [], some m⟩,
       ⟨st.metadata.total_organizations,
        st.metadata.successful_organizations,
        st.metadata.failed_organizations + 1⟩⟩

/-- The function `build_structure` (lines 285-351): fold over the
configured organizations in declaration order, starting from an empty
organizations mapping and zeroed counters.  `oracle name id` is the result
of processing that organization (fetch + aggregation, or a raised
exception). -/
def build_structure (orgs : List (String × String))
    (oracle : String → String → OrgOutcome) : StructureDoc :=
  orgs.foldl (buildStep oracle) ⟨[], ⟨orgs.length, 0, 0⟩⟩

/-! ## The snapshot writer (`save_structure`, lines 353-409) -/

/-- Content of a file as observable by a concurrent reader: a completely
written document, or a truncated prefix left by a write that failed
partway. -/
inductive FileContent where
  | whole (doc : String)
  | truncated (doc : String)
deriving DecidableEq

/-- The two paths `save_structure` touches for a given year: the output
file `data/bsm-structure-<year>.json` (line 365) and the temporary file
`output_file + '.tmp'` (line 378). -/
inductive FPath where
  | outFile (year : Int)
  | tmpFile (year : Int)
deriving DecidableEq

/-- A file-system state: the association of paths to file contents. -/
abbrev FS : Type := List (FPath × FileContent)

/-- Content at a path, as seen by a reader. -/
def readFS (fs : FS) (p : FPath) : Option FileContent := dget fs p

/-- Writing (creating or replacing) a file. -/
def writeFS (fs : FS) (p : FPath) (c : FileContent) : FS := dset fs p c

/-- Removing a file (`os.remove`). -/
def removeFS (fs : FS) (p : FPath) : FS := fs.filter (fun kv => kv.1 != p)

/-- Failure scenarios of one `save_structure` call: no failure, a failure
before the temporary file is created (directory creation, open,
validation), a failure partway through writing the temporary file
(serialization or I/O error inside `json.dump`), a failure of
`os.remove(output_file)` (line 384), or a failure of
`os.rename(temp_file, output_file)` (line 385). -/
inductive SaveFail where
  | noFail
  | beforeWrite
  | duringWrite
  | atRemove
  | atRename
deriving DecidableEq

/-- The function `save_structure` (lines 353-409) as a file-system state
machine: write the document to the temporary path, then, when the output
file already exists, `os.remove` it (line 384), then `os.rename` the
temporary file onto the output path (line 385).  The result is the list
of successive file-system states a concurrent reader can observe,
together with the boolean return value (`True` on success, `False` when
any step raised and was caught at lines 398-409). -/
def save_structure (year : Int) (fs0 : FS) (doc : String) (f : SaveFail) :
    List FS × Bool :=
  match f with
  | .beforeWrite => ([fs0], false)
  | .duringWrite =>
      ([fs0, writeFS fs0 (.tmpFile year) (.truncated doc)], false)
  | _ =>
    let fs1 := writeFS fs0 (.tmpFile year) (.whole doc)
    match f, readFS fs0 (.outFile year) with
    | .atRemove, some _ => ([fs0, fs1], false)
    | _, _ =>
      let fs2 := if (readFS fs1 (.outFile year)).isSome
                 then removeFS fs1 (.outFile year) else fs1
      match f with
      | .atRename => ([fs0, fs1, fs2], false)
      | _ =>
        let fs3 := writeFS (removeFS fs2 (.tmpFile year)) (.outFile year)
                     (.whole doc)
        ([fs0, fs1, fs2, fs3], true)

/-- Final observable file-system state of a `save_structure` call. -/
def finalFS (r : List FS × Bool) : FS := r.1.getLastD []

/-! ## Derived notions used to state properties of the aggregation -/

/-- The league dictionary of a match, when the match passes the guards of
lines 184 and 189. -/
def leagueObjOf (m : J) : Option (List (String × J)) :=
  match m with
  | J.obj mf => truthyObj (dget mf "league")
  | _ => none

/-- The league id `league.get('id')` of a match (line 190). -/
def leagueIdOf (m : J) : Option J :=
  (leagueObjOf m).bind (fun lg => dget lg "id")

/-- The league name `league.get('name')` of a match (line 191), as stored
into the league entry (missing becomes null). -/
def leagueNameOf (m : J) : J :=
  ((leagueObjOf m).bind (fun lg => dget lg "name")).getD J.null

/-- Whether a match mentions the league `lid`: its league id is present,
truthy, and equal to `lid` (the guard chain of lines 184-193). -/
def mentionsLeague (lid : J) (m : J) : Bool :=
  match leagueIdOf m with
  | some lid2 => truthy lid2 && decide (lid2 = lid)
  | none => false

/-- Effect of one match on the team map of league `lid`: the home and away
ingestion when the match mentions `lid`, no change otherwise. -/
def teamStep (lid : J) (ts : List (J × TeamD)) (m : J) : List (J × TeamD) :=
  match m with
  | J.obj mf =>
    match truthyObj (dget mf "league") with
    | some league =>
      match dget league "id" with
      | some lid2 =>
          if truthy lid2 ∧ lid2 = lid then ingestTeams mf ts else ts
      | none => ts
    | none => ts
  | _ => ts

/-- The team-map writes a match performs on league `lid`, in execution
order: the home side's key/snapshot pair (if it resolves), then the away
side's. -/
def matchSnaps (lid : J) (m : J) : List (J × TeamD) :=
  if mentionsLeague lid m then
    match m with
    | J.obj mf => (sideSnap (homeOf mf)).toList ++ (sideSnap (awayOf mf)).toList
    | _ => []
  else []

/-- The team snapshots written at key `tid` of league `lid` over a match
batch, in execution order; the last of these is what the team map holds at
the end of the batch. -/
def teamWrites (lid tid : J) (ms : List J) : List TeamD :=
  (((ms.map (matchSnaps lid)).flatten).filter (fun p => decide (p.1 = tid))).map
    Prod.snd

/-- The league record produced for key `lid` by the aggregation loop:
created by the first match that mentions `lid` (which fixes the stored
name), its team map then folded over the whole batch. -/
def aggLeague (lid : J) : List J → Option LeagueRec
  | [] => none
  | m :: rest =>
      if mentionsLeague lid m then
        some ⟨lid, leagueNameOf m, rest.foldl (teamStep lid) (teamStep lid [] m)⟩
      else aggLeague lid rest

/-- The team id a side entry resolves to before the truthiness test of
line 209 / 244 (`home_entry['team'].get('id')` behind the dictionary
guards). -/
def teamIdOf (entry : Option J) : Option J :=
  (truthyObj entry).bind (fun e =>
    (truthyObj (dget e "team")).bind (fun team => dget team "id"))

/-- The coarse per-organization success signal of lines 331-336: an
organization is successful exactly when its league mapping is non-empty. -/
def orgSuccess : OrgOutcome → Bool
  | .ok ls => !ls.isEmpty
  | .exn _ => false

/-! ## Concrete sample inputs used in instance checks -/

/-- A concrete club dictionary as delivered by the API. -/
def clubNine : J := J.obj [("id", J.num 9), ("name", J.str "Club Nine")]

/-- The club record the aggregation builds from `clubNine`. -/
def clubNineRec : J :=
  J.obj [("id", J.num 9), ("name", J.str "Club Nine"), ("acronym", J.null),
         ("short_name", J.null), ("logo_url", J.null)]

/-- A second, distinct concrete club dictionary. -/
def clubTen : J := J.obj [("id", J.num 10), ("name", J.str "Club Ten")]

/-- The club record the aggregation builds from `clubTen`. -/
def clubTenRec : J :=
  J.obj [("id", J.num 10), ("name", J.str "Club Ten"), ("acronym", J.null),
         ("short_name", J.null), ("logo_url", J.null)]

/-- A concrete match in league 1 whose home team 100 carries the given
clubs array. -/
def homeMatch (lname : String) (clubs : List J) : J :=
  J.obj [("league", J.obj [("id", J.num 1), ("name", J.str lname)]),
         ("home_league_entry", J.obj [("team", J.obj
           [("id", J.num 100), ("name", J.str "Tigers"),
            ("clubs", J.arr clubs)])])]

/-- A sample organization list for concrete builder runs. -/
def demoOrgs : List (String × String) := [("A", "1"), ("B", "2"), ("C", "3")]

/-- A sample per-organization oracle: organization A yields one league,
B yields zero leagues, C raises an exception. -/
def demoOracle : String → String → OrgOutcome := fun n _ =>
  if n = "A" then .ok [(J.num 1, ⟨J.num 1, J.str "L", []⟩)]
  else if n = "B" then .ok []
  else .exn "boom"

/-- A concrete match in league 1 with home team 200 and away team 100
(team ids arriving in non-sorted order). -/
def twoTeamsMatch : J :=
  J.obj [("league", J.obj [("id", J.num 1), ("name", J.str "L")]),
         ("home_league_entry", J.obj
           [("team", J.obj [("id", J.num 200), ("name", J.str "Bears")])]),
         ("away_league_entry", J.obj
           [("team", J.obj [("id", J.num 100), ("name", J.str "Ants")])])]

/-! ## Association-list lemmas -/

theorem dget_dset_self {K V : Type} [DecidableEq K] (m : List (K × V))
    (k : K) (v : V) : dget (dset m k v) k = some v := by
  induction m with
  | nil => simp [dget, dset]
  | cons p rest ih =>
    obtain ⟨k', v'⟩ := p
    by_cases h : k' = k <;> simp [dget, dset, h, ih]

theorem dget_dset_ne {K V : Type} [DecidableEq K] (m : List (K × V))
    (k k' : K) (v : V) (h : k' ≠ k) :
    dget (dset m k v) k' = dget m k' := by
  have hk : ¬ k = k' := fun e => h e.symm
  induction m with
  | nil => simp [dget, dset, hk]
  | cons p rest ih =>
    obtain ⟨a, b⟩ := p
    by_cases ha : a = k
    · subst ha
      simp [dget, dset, hk]
    · simp only [dset, if_neg ha]
      by_cases hb : a = k' <;> simp [dget, hb, ih]

theorem mem_dset {K V : Type} [DecidableEq K] (m : List (K × V))
    (k : K) (v : V) (p : K × V) :
    p ∈ dset m k v → p ∈ m ∨ p = (k, v) := by
  induction m with
  | nil => intro h; simpa [dset] using h
  | cons q rest ih =>
    intro h
    obtain ⟨a, b⟩ := q
    by_cases ha : a = k
    · subst ha
      simp [dset] at h
      rcases h with rfl | h
      · exact Or.inr rfl
      · exact Or.inl (List.mem_cons_of_mem _ h)
    · simp [dset, ha] at h
      rcases h with rfl | h
      · exact Or.inl (List.mem_cons_self _ _)
      · rcases ih h with h' | h'
        · exact Or.inl (List.mem_cons_of_mem _ h')
        · exact Or.inr h'

theorem dget_append_none {K V : Type} [DecidableEq K]
    (l1 l2 : List (K × V)) (k : K) :
    dget l1 k = none → dget (l1 ++ l2) k = dget l2 k := by
  induction l1 with
  | nil => intro h; simp
  | cons p rest ih =>
    intro h
    obtain ⟨a, b⟩ := p
    by_cases ha : a = k <;> simp_all [dget]

theorem dget_append_some {K V : Type} [DecidableEq K]
    (l1 l2 : List (K × V)) (k : K) (v : V) :
    dget l1 k = some v → dget (l1 ++ l2) k = some v := by
  induction l1 with
  | nil => intro h; simp [dget] at h
  | cons p rest ih =>
    intro h
    obtain ⟨a, b⟩ := p
    by_cases ha : a = k <;> simp_all [dget]

theorem keysNodup_dset {K V : Type} [DecidableEq K] (m : List (K × V))
    (k : K) (v : V) :
    (m.map Prod.fst).Nodup → ((dset m k v).map Prod.fst).Nodup := by
  induction m with
  | nil => intro h; simp [dset]
  | cons p rest ih =>
    intro h
    obtain ⟨a, b⟩ := p
    simp only [List.map_cons, List.nodup_cons] at h
    by_cases ha : a = k
    · subst ha
      simpa [dset] using h
    · have hmem : a ∉ ((dset rest k v).map Prod.fst) := by
        intro hx
        rcases List.mem_map.mp hx with ⟨q, hq, hqa⟩
        rcases mem_dset rest k v q hq with h' | h'
        · exact h.1 (List.mem_map.mpr ⟨q, h', hqa⟩)
        · subst h'
          exact ha hqa.symm
      simp only [dset, if_neg ha, List.map_cons, List.nodup_cons]
      exact ⟨hmem, ih h.2⟩

theorem dget_eq_of_mem_nodup {K V : Type} [DecidableEq K]
    (m : List (K × V)) (k : K) (v : V) :
    (m.map Prod.fst).Nodup → (k, v) ∈ m → dget m k = some v := by
  induction m with
  | nil => intro _ h; simp at h
  | cons p rest ih =>
    intro hn h
    obtain ⟨a, b⟩ := p
    simp only [List.map_cons, List.nodup_cons] at hn
    rcases List.mem_cons.mp h with h' | h'
    · simp only [Prod.mk.injEq] at h'
      obtain ⟨rfl, rfl⟩ := h'
      simp [dget]
    · have hak : ¬ a = k := by
        rintro rfl
        exact hn.1 (List.mem_map.mpr ⟨(a, v), h', rfl⟩)
      simp [dget, hak, ih hn.2 h']

theorem dget_map_snd {K V W : Type} [DecidableEq K] (m : List (K × V))
    (g : V → W) (k : K) :
    dget (m.map (fun p => (p.1, g p.2))) k = (dget m k).map g := by
  induction m with
  | nil => simp [dget]
  | cons p rest ih =>
    obtain ⟨a, b⟩ := p
    by_cases ha : a = k <;> simp [dget, ha, ih]

/-! ## Characterization of the aggregation loop -/

@[simp]
theorem dget_cons_self {K V : Type} [DecidableEq K] (k : K) (v : V)
    (l : List (K × V)) : dget ((k, v) :: l) k = some v := by
  simp [dget]

theorem dget_cons_ne {K V : Type} [DecidableEq K] (a k : K) (v : V)
    (l : List (K × V)) (h : ¬ a = k) : dget ((a, v) :: l) k = dget l k := by
  simp [dget, h]

theorem dget_updTeams_self (ld : List (J × LeagueRec)) (k : J)
    (f : List (J × TeamD) → List (J × TeamD)) :
    dget (updTeams ld k f) k =
      (dget ld k).map (fun r => ⟨r.id, r.name, f r.teams⟩) := by
  induction ld with
  | nil => rfl
  | cons p rest ih =>
    obtain ⟨a, r⟩ := p
    simp only [updTeams, List.map_cons]
    by_cases ha : a = k
    · rw [if_pos ha]
      subst ha
      rw [dget_cons_self, dget_cons_self]
      rfl
    · rw [if_neg ha, dget_cons_ne _ _ _ _ ha, dget_cons_ne _ _ _ _ ha]
      simpa [updTeams] using ih

theorem dget_updTeams_ne (ld : List (J × LeagueRec)) (k k' : J)
    (f : List (J × TeamD) → List (J × TeamD)) (h : k' ≠ k) :
    dget (updTeams ld k f) k' = dget ld k' := by
  induction ld with
  | nil => rfl
  | cons p rest ih =>
    obtain ⟨a, r⟩ := p
    simp only [updTeams, List.map_cons]
    by_cases ha : a = k
    · have hk : ¬ a = k' := fun e => h (e ▸ ha)
      rw [if_pos ha, dget_cons_ne _ _ _ _ hk, dget_cons_ne _ _ _ _ hk]
      simpa [updTeams] using ih
    · rw [if_neg ha]
      by_cases hb : a = k'
      · subst hb
        rw [dget_cons_self, dget_cons_self]
      · rw [dget_cons_ne _ _ _ _ hb, dget_cons_ne _ _ _ _ hb]
        simpa [updTeams] using ih

theorem pm_some (ld : List (J × LeagueRec)) (m : J) (lid : J)
    (rec : LeagueRec) (h : dget ld lid = some rec) :
    dget (processMatch ld m) lid =
      some ⟨rec.id, rec.name, teamStep lid rec.teams m⟩ := by
  cases m with
  | obj mf =>
    cases hlg : truthyObj (dget mf "league") with
    | none => simp [processMatch, teamStep, hlg, h]
    | some league =>
      cases hid : dget league "id" with
      | none => simp [processMatch, teamStep, hlg, hid, h]
      | some lid2 =>
        by_cases ht : truthy lid2
        · by_cases heq : lid2 = lid
          · subst heq
            simp only [processMatch, teamStep, hlg, hid, ht, if_true,
              and_self, h, Option.isSome_some]
            rw [dget_updTeams_self, h]
            rfl
          · have hne : lid ≠ lid2 := fun e => heq e.symm
            have hcond : ¬ (truthy lid2 = true ∧ lid2 = lid) := by
              intro hc; exact heq hc.2
            simp only [processMatch, teamStep, hlg, hid, ht, if_true,
              if_neg hcond]
            cases hld2 : dget ld lid2 with
            | some r2 =>
              simp only [hld2, Option.isSome_some, if_true]
              rw [dget_updTeams_ne _ _ _ _ hne, h]
              simp [heq]
            | none =>
              simp only [hld2, Option.isSome_none, Bool.false_eq_true,
                if_false]
              rw [dget_updTeams_ne _ _ _ _ hne,
                dget_append_some _ _ _ _ h]
              simp [heq]
        · simp [processMatch, teamStep, hlg, hid, ht, h]
  | null => simp [processMatch, teamStep, h]
  | bool b => simp [processMatch, teamStep, h]
  | num n => simp [processMatch, teamStep, h]
  | str s => simp [processMatch, teamStep, h]
  | arr xs => simp [processMatch, teamStep, h]

theorem teamStep_not_mention (lid : J) (ts : List (J × TeamD)) (m : J)
    (h : mentionsLeague lid m = false) : teamStep lid ts m = ts := by
  cases m with
  | obj mf =>
    cases hlg : truthyObj (dget mf "league") with
    | none => simp [teamStep, hlg]
    | some league =>
      cases hid : dget league "id" with
      | none => simp [teamStep, hlg, hid]
      | some lid2 =>
        have hlid : leagueIdOf (J.obj mf) = some lid2 := by
          simp [leagueIdOf, leagueObjOf, hlg, hid]
        have h2 : ¬ (truthy lid2 = true ∧ lid2 = lid) := by
          rintro ⟨ht, rfl⟩
          have hm : mentionsLeague lid2 (J.obj mf) = true := by
            simp [mentionsLeague, hlid, ht]
          rw [h] at hm
          cases hm
        simp [teamStep, hlg, hid, h2]
  | null => rfl
  | bool b => rfl
  | num n => rfl
  | str s => rfl
  | arr xs => rfl

theorem pm_none (ld : List (J × LeagueRec)) (m : J) (lid : J)
    (h : dget ld lid = none) :
    dget (processMatch ld m) lid =
      if mentionsLeague lid m then
        some ⟨lid, leagueNameOf m, teamStep lid [] m⟩
      else none := by
  cases m with
  | obj mf =>
    cases hlg : truthyObj (dget mf "league") with
    | none =>
      simp [processMatch, mentionsLeague, leagueIdOf, leagueObjOf, hlg, h]
    | some league =>
      cases hid : dget league "id" with
      | none =>
        simp [processMatch, mentionsLeague, leagueIdOf, leagueObjOf, hlg,
          hid, h]
      | some lid2 =>
        by_cases ht : truthy lid2
        · by_cases heq : lid2 = lid
          · subst heq
            have hment : mentionsLeague lid2 (J.obj mf) = true := by
              simp [mentionsLeague, leagueIdOf, leagueObjOf, hlg, hid, ht]
            simp only [processMatch, teamStep, hlg, hid, ht, if_true, h,
              Option.isSome_none, Bool.false_eq_true, if_false, hment,
              leagueNameOf, leagueObjOf, Option.bind_some]
            have happ : dget (ld ++
                [(lid2, (⟨lid2, (dget league "name").getD J.null, []⟩ :
                  LeagueRec))]) lid2 =
                some ⟨lid2, (dget league "name").getD J.null, []⟩ := by
              rw [dget_append_none _ _ _ h, dget_cons_self]
            rw [dget_updTeams_self, happ]
            simp [and_self, ht]
          · have hment : mentionsLeague lid (J.obj mf) = false := by
              simp [mentionsLeague, leagueIdOf, leagueObjOf, hlg, hid, heq]
            have hne : lid ≠ lid2 := fun e => heq e.symm
            simp only [processMatch, hlg, hid, ht, if_true, hment,
              Bool.false_eq_true, if_false]
            cases hld2 : dget ld lid2 with
            | some r2 =>
              simp only [hld2, Option.isSome_some, if_true]
              rw [dget_updTeams_ne _ _ _ _ hne, h]
            | none =>
              simp only [hld2, Option.isSome_none, Bool.false_eq_true,
                if_false]
              rw [dget_updTeams_ne _ _ _ _ hne, dget_append_none _ _ _ h,
                dget_cons_ne _ _ _ _ (fun e => hne (e.symm)), dget]
        · have hment : mentionsLeague lid (J.obj mf) = false := by
            simp [mentionsLeague, leagueIdOf, leagueObjOf, hlg, hid, ht]
          simp [processMatch, hlg, hid, ht, hment, h]
  | null => simp [processMatch, mentionsLeague, leagueIdOf, leagueObjOf, h]
  | bool b => simp [processMatch, mentionsLeague, leagueIdOf, leagueObjOf, h]
  | num n => simp [processMatch, mentionsLeague, leagueIdOf, leagueObjOf, h]
  | str s => simp [processMatch, mentionsLeague, leagueIdOf, leagueObjOf, h]
  | arr xs => simp [processMatch, mentionsLeague, leagueIdOf, leagueObjOf, h]

theorem agg_main (lid : J) (ms : List J) : ∀ ld : List (J × LeagueRec),
    dget (ms.foldl processMatch ld) lid =
      match dget ld lid with
      | some rec => some ⟨rec.id, rec.name, ms.foldl (teamStep lid) rec.teams⟩
      | none => aggLeague lid ms := by
  induction ms with
  | nil =>
    intro ld
    cases h : dget ld lid <;> simp [aggLeague, h]
  | cons m rest ih =>
    intro ld
    simp only [List.foldl_cons]
    rw [ih (processMatch ld m)]
    cases h : dget ld lid with
    | some rec =>
      rw [pm_some ld m lid rec h]
    | none =>
      rw [pm_none ld m lid h]
      by_cases hm : mentionsLeague lid m
      · simp [hm, aggLeague]
      · simp [hm, aggLeague]

theorem dget_aggregate (lid : J) (ms : List J) :
    dget (aggregate ms) lid = aggLeague lid ms := by
  have h := agg_main lid ms []
  simpa [aggregate, dget] using h

theorem aggLeague_id (lid : J) (ms : List J) (rec : LeagueRec) :
    aggLeague lid ms = some rec → rec.id = lid := by
  induction ms with
  | nil => intro h; cases h
  | cons m rest ih =>
    intro h
    by_cases hm : mentionsLeague lid m
    · simp only [aggLeague, hm, if_true] at h
      cases h
      rfl
    · simp only [aggLeague, hm, Bool.false_eq_true, if_false] at h
      exact ih h

theorem aggLeague_name (lid : J) (ms : List J) (rec : LeagueRec) :
    aggLeague lid ms = some rec →
      (ms.find? (mentionsLeague lid)).map leagueNameOf = some rec.name := by
  induction ms with
  | nil => intro h; cases h
  | cons m rest ih =>
    intro h
    by_cases hm : mentionsLeague lid m
    · simp only [aggLeague, hm, if_true] at h
      cases h
      simp [List.find?_cons, hm]
    · simp only [aggLeague, hm, Bool.false_eq_true, if_false] at h
      simpa [List.find?_cons, hm] using ih h

theorem aggLeague_teams (lid : J) (ms : List J) (rec : LeagueRec) :
    aggLeague lid ms = some rec →
      rec.teams = ms.foldl (teamStep lid) [] := by
  induction ms with
  | nil => intro h; cases h
  | cons m rest ih =>
    intro h
    by_cases hm : mentionsLeague lid m
    · simp only [aggLeague, hm, if_true] at h
      cases h
      simp [List.foldl_cons]
    · simp only [aggLeague, hm, Bool.false_eq_true, if_false] at h
      rw [ih h, List.foldl_cons, teamStep_not_mention lid [] m
        (by simpa using hm)]

theorem teamStep_eq (lid : J) (ts : List (J × TeamD)) (m : J) :
    teamStep lid ts m =
      (matchSnaps lid m).foldl (fun ts2 p => dset ts2 p.1 p.2) ts := by
  by_cases hm : mentionsLeague lid m
  · cases m with
    | obj mf =>
      have hstep : teamStep lid ts (J.obj mf) = ingestTeams mf ts := by
        simp only [mentionsLeague] at hm
        cases hlid : leagueIdOf (J.obj mf) with
        | none => rw [hlid] at hm; cases hm
        | some lid2 =>
          rw [hlid] at hm
          simp only [Bool.and_eq_true, decide_eq_true_eq] at hm
          cases hlg : truthyObj (dget mf "league") with
          | none => simp [leagueIdOf, leagueObjOf, hlg] at hlid
          | some league =>
            have hid : dget league "id" = some lid2 := by
              simpa [leagueIdOf, leagueObjOf, hlg] using hlid
            simp only [teamStep, hlg, hid]
            rw [if_pos hm]
      rw [hstep]
      simp only [matchSnaps, hm, if_true]
      rcases hh : sideSnap (homeOf mf) with _ | ⟨t1, d1⟩ <;>
        rcases ha : sideSnap (awayOf mf) with _ | ⟨t2, d2⟩ <;>
          simp [ingestTeams, processEntry, hh, ha]
    | null => cases hm
    | bool b => cases hm
    | num n => cases hm
    | str s => cases hm
    | arr xs => cases hm
  · rw [teamStep_not_mention lid ts m (by simpa using hm)]
    simp [matchSnaps, hm]

theorem teams_fold_writes (lid : J) (ms : List J) :
    ∀ ts : List (J × TeamD),
    ms.foldl (teamStep lid) ts =
      ((ms.map (matchSnaps lid)).flatten).foldl
        (fun m p => dset m p.1 p.2) ts := by
  induction ms with
  | nil => intro ts; simp
  | cons m rest ih =>
    intro ts
    simp only [List.foldl_cons, List.map_cons, List.flatten_cons,
      List.foldl_append]
    rw [ih, teamStep_eq]

theorem dget_foldl_dset {K V : Type} [DecidableEq K] (l : List (K × V)) :
    ∀ (m0 : List (K × V)) (k : K),
    dget (l.foldl (fun m p => dset m p.1 p.2) m0) k =
      match (l.filter (fun p => decide (p.1 = k))).getLast? with
      | some p => some p.2
      | none => dget m0 k := by
  induction l with
  | nil => intro m0 k; simp
  | cons x xs ih =>
    intro m0 k
    simp only [List.foldl_cons]
    rw [ih]
    by_cases hx : x.1 = k
    · have hfc : (x :: xs).filter (fun p => decide (p.1 = k)) =
          x :: xs.filter (fun p => decide (p.1 = k)) := by
        simp [List.filter_cons, hx]
      rw [hfc, List.getLast?_cons]
      cases hlast : (xs.filter (fun p => decide (p.1 = k))).getLast? with
      | some p => simp
      | none =>
        have hxk : dget (dset m0 x.1 x.2) k = some x.2 := by
          rw [← hx]
          exact dget_dset_self m0 x.1 x.2
        simp [hxk]
    · have hne : k ≠ x.1 := fun e => hx e.symm
      have hfc : (x :: xs).filter (fun p => decide (p.1 = k)) =
          xs.filter (fun p => decide (p.1 = k)) := by
        simp [List.filter_cons, hx]
      rw [hfc, dget_dset_ne _ _ _ _ hne]

theorem mem_foldl_dset {K V : Type} [DecidableEq K] (l : List (K × V)) :
    ∀ (m0 : List (K × V)) (q : K × V),
    q ∈ l.foldl (fun m p => dset m p.1 p.2) m0 → q ∈ m0 ∨ q ∈ l := by
  induction l with
  | nil => intro m0 q h; exact Or.inl h
  | cons x xs ih =>
    intro m0 q h
    simp only [List.foldl_cons] at h
    rcases ih _ _ h with h2 | h2
    · rcases mem_dset m0 x.1 x.2 q h2 with h3 | h3
      · exact Or.inl h3
      · right
        rw [h3]
        exact List.mem_cons_self _ _
    · exact Or.inr (List.mem_cons_of_mem _ h2)

theorem keysNodup_foldl_dset {K V : Type} [DecidableEq K] (l : List (K × V)) :
    ∀ m0 : List (K × V), (m0.map Prod.fst).Nodup →
      ((l.foldl (fun m p => dset m p.1 p.2) m0).map Prod.fst).Nodup := by
  induction l with
  | nil => intro m0 h; exact h
  | cons x xs ih =>
    intro m0 h
    simp only [List.foldl_cons]
    exact ih _ (keysNodup_dset m0 x.1 x.2 h)

theorem sideSnap_shape (e : Option J) (p : J × TeamD)
    (h : sideSnap e = some p) :
    truthy p.1 = true ∧ ∃ team, p.2 = mkTeamData p.1 team := by
  unfold sideSnap at h
  cases hto : truthyObj e with
  | none => simp [hto] at h
  | some e2 =>
    simp only [hto] at h
    cases htt : truthyObj (dget e2 "team") with
    | none => simp [htt] at h
    | some team =>
      simp only [htt] at h
      cases hid : dget team "id" with
      | none => simp [hid] at h
      | some tid =>
        simp only [hid] at h
        by_cases ht : truthy tid
        · rw [if_pos ht] at h
          cases h
          exact ⟨ht, team, rfl⟩
        · simp [ht] at h

theorem matchSnaps_shape (lid : J) (m : J) (p : J × TeamD)
    (h : p ∈ matchSnaps lid m) :
    truthy p.1 = true ∧ ∃ team, p.2 = mkTeamData p.1 team := by
  unfold matchSnaps at h
  by_cases hm : mentionsLeague lid m
  · rw [if_pos hm] at h
    cases m with
    | obj mf =>
      rcases List.mem_append.mp h with h2 | h2
      · cases hh : sideSnap (homeOf mf) with
        | none => rw [hh] at h2; cases h2
        | some q =>
          rw [hh] at h2
          simp only [Option.toList_some, List.mem_singleton] at h2
          subst h2
          exact sideSnap_shape _ _ hh
      · cases hh : sideSnap (awayOf mf) with
        | none => rw [hh] at h2; cases h2
        | some q =>
          rw [hh] at h2
          simp only [Option.toList_some, List.mem_singleton] at h2
          subst h2
          exact sideSnap_shape _ _ hh
    | null => cases h
    | bool b => cases h
    | num n => cases h
    | str s => cases h
    | arr xs => cases h
  · rw [if_neg hm] at h
    cases h

theorem mkTeamData_id (tid : J) (team : List (String × J)) :
    dget (mkTeamData tid team) "id" = some tid := by
  unfold mkTeamData
  split <;> rfl

theorem mkTeamData_club_fields (tid : J) (team : List (String × J)) :
    (clubsListOf team = [] →
      dget (mkTeamData tid team) "club" = none ∧
      dget (mkTeamData tid team) "clubs" = none) ∧
    (∀ c, clubsListOf team = [c] →
      dget (mkTeamData tid team) "club" = some c ∧
      dget (mkTeamData tid team) "clubs" = none) ∧
    (2 ≤ (clubsListOf team).length →
      dget (mkTeamData tid team) "club" = none ∧
      dget (mkTeamData tid team) "clubs" =
        some (J.arr (clubsListOf team))) := by
  refine ⟨?_, ?_, ?_⟩
  · intro hcl
    simp [mkTeamData, hcl, dget]
  · intro c hcl
    simp [mkTeamData, hcl, dget]
  · intro h2
    cases hcl : clubsListOf team with
    | nil => rw [hcl] at h2; simp at h2
    | cons c cs =>
      cases cs with
      | nil => rw [hcl] at h2; simp at h2
      | cons c2 cs2 => simp [mkTeamData, hcl, dget]

theorem dget_teams_lastWrite (lid tid : J) (ms : List J) (rec : LeagueRec)
    (h : dget (aggregate ms) lid = some rec) :
    dget rec.teams tid =
      ((((ms.map (matchSnaps lid)).flatten).filter
        (fun p => decide (p.1 = tid))).getLast?).map Prod.snd := by
  rw [dget_aggregate] at h
  rw [aggLeague_teams lid ms rec h, teams_fold_writes, dget_foldl_dset]
  cases hl : ((((ms.map (matchSnaps lid)).flatten).filter
      (fun p => decide (p.1 = tid))).getLast?) <;> simp [dget]

theorem rec_teams_mem_shape (lid : J) (ms : List J) (rec : LeagueRec)
    (h : dget (aggregate ms) lid = some rec) (q : J × TeamD)
    (hq : q ∈ rec.teams) :
    truthy q.1 = true ∧ ∃ team, q.2 = mkTeamData q.1 team := by
  rw [dget_aggregate] at h
  rw [aggLeague_teams lid ms rec h, teams_fold_writes] at hq
  rcases mem_foldl_dset _ _ _ hq with h2 | h2
  · cases h2
  · rcases List.mem_flatten.mp h2 with ⟨l2, hl2, hql2⟩
    rcases List.mem_map.mp hl2 with ⟨m, _, rfl⟩
    exact matchSnaps_shape lid m q hql2

theorem rec_teams_keysNodup (lid : J) (ms : List J) (rec : LeagueRec)
    (h : dget (aggregate ms) lid = some rec) :
    (rec.teams.map Prod.fst).Nodup := by
  rw [dget_aggregate] at h
  rw [aggLeague_teams lid ms rec h, teams_fold_writes]
  exact keysNodup_foldl_dset _ [] (by simp)

theorem dget_aggregateOut (ms : List J) (lid : J) :
    dget (aggregateOut ms) lid = (dget (aggregate ms) lid).map finalizeLeague :=
  dget_map_snd (aggregate ms) finalizeLeague lid

theorem finalize_teams_mem (r : LeagueRec) (td : TeamD) :
    td ∈ (finalizeLeague r).teams ↔ ∃ k, (k, td) ∈ r.teams := by
  unfold finalizeLeague
  rw [List.Perm.mem_iff (List.perm_insertionSort teamLE _)]
  constructor
  · intro h
    rcases List.mem_map.mp h with ⟨q, hq, rfl⟩
    exact ⟨q.1, by simpa using hq⟩
  · rintro ⟨k, hk⟩
    exact List.mem_map.mpr ⟨(k, td), hk, rfl⟩

/-! ## Fetcher lemmas -/

theorem getD_replicate_of_lt {A : Type} (n j : Nat) (a d : A) (hj : j < n) :
    (List.replicate n a).getD j d = a := by
  rw [List.getD_eq_getElem?_getD, List.getElem?_replicate, if_pos hj]
  rfl

theorem fetchGo_fallthrough (c : Nat) (hc1 : c < 400) (hc2 : c ≠ 200)
    (outs : List AttemptOutcome) :
    ∀ (rem attempt : Nat), 1 ≤ attempt →
      (∀ j, j < rem → outs.getD (attempt - 1 + j) .reqError = .status c) →
      fetchGo outs attempt rem = ⟨none, [], rem⟩ := by
  intro rem
  induction rem with
  | zero => intro attempt _ _; rfl
  | succ n ih =>
    intro attempt ha h
    have h0 : outs.getD (attempt - 1) .reqError = .status c := by
      simpa using h 0 (Nat.succ_pos n)
    have hnretry : ¬ (c = 429 ∨ c = 503 ∨ 500 ≤ c) := by omega
    have hn404 : ¬ (c = 404) := by omega
    have hn400 : ¬ (400 ≤ c) := by omega
    have ih2 : fetchGo outs (attempt + 1) n = ⟨none, [], n⟩ := by
      refine ih (attempt + 1) (by omega) ?_
      intro j hj
      have := h (j + 1) (by omega)
      have harith : attempt - 1 + (j + 1) = attempt + 1 - 1 + j := by omega
      rw [harith] at this
      exact this
    simp only [fetchGo, h0]
    rw [if_neg hc2, if_neg hnretry, if_neg hn404, if_neg hn400, ih2]

/-! ## Structure-builder lemmas -/

theorem build_orgs (oracle : String → String → OrgOutcome)
    (orgs : List (String × String)) :
    ∀ st0 : StructureDoc,
    (orgs.foldl (buildStep oracle) st0).organizations =
      orgs.foldl
        (fun acc p => dset acc p.1 (orgEntryFor p.2 (oracle p.1 p.2)))
        st0.organizations := by
  induction orgs with
  | nil => intro st0; rfl
  | cons p rest ih =>
    intro st0
    simp only [List.foldl_cons]
    rw [ih]
    have horg : (buildStep oracle st0 p).organizations =
        dset st0.organizations p.1 (orgEntryFor p.2 (oracle p.1 p.2)) := by
      cases ho : oracle p.1 p.2 with
      | ok ls => by_cases hl : ls.isEmpty <;> simp [buildStep, ho, orgEntryFor, hl]
      | exn m => simp [buildStep, ho, orgEntryFor]
    rw [horg]

theorem build_meta (oracle : String → String → OrgOutcome)
    (orgs : List (String × String)) :
    ∀ st0 : StructureDoc,
    (orgs.foldl (buildStep oracle) st0).metadata.total_organizations =
        st0.metadata.total_organizations ∧
    (orgs.foldl (buildStep oracle) st0).metadata.successful_organizations =
        st0.metadata.successful_organizations +
          (orgs.filter (fun p => orgSuccess (oracle p.1 p.2))).length ∧
    (orgs.foldl (buildStep oracle) st0).metadata.failed_organizations =
        st0.metadata.failed_organizations +
          (orgs.filter (fun p => !orgSuccess (oracle p.1 p.2))).length := by
  induction orgs with
  | nil => intro st0; exact ⟨rfl, by simp, by simp⟩
  | cons p rest ih =>
    intro st0
    simp only [List.foldl_cons]
    obtain ⟨h1, h2, h3⟩ := ih (buildStep oracle st0 p)
    refine ⟨?_, ?_, ?_⟩
    · rw [h1]
      cases ho : oracle p.1 p.2 with
      | ok ls => by_cases hl : ls.isEmpty <;> simp [buildStep, ho, hl]
      | exn m => simp [buildStep, ho]
    · rw [h2]
      cases ho : oracle p.1 p.2 with
      | ok ls =>
        by_cases hl : ls.isEmpty <;>
          simp [buildStep, ho, hl, orgSuccess, List.filter_cons] <;> omega
      | exn m =>
        simp [buildStep, ho, orgSuccess, List.filter_cons]
    · rw [h3]
      cases ho : oracle p.1 p.2 with
      | ok ls =>
        by_cases hl : ls.isEmpty <;>
          simp [buildStep, ho, hl, orgSuccess, List.filter_cons] <;> omega
      | exn m =>
        simp [buildStep, ho, orgSuccess, List.filter_cons]
        omega

theorem dget_foldl_entry_notin (oracle : String → String → OrgOutcome)
    (rest : List (String × String)) :
    ∀ (acc : List (String × OrgEntry)) (k : String),
      k ∉ rest.map Prod.fst →
      dget (rest.foldl
          (fun acc q => dset acc q.1 (orgEntryFor q.2 (oracle q.1 q.2)))
          acc) k = dget acc k := by
  induction rest with
  | nil => intro acc k _; rfl
  | cons q rest2 ih =>
    intro acc k hk
    simp only [List.map_cons, List.mem_cons] at hk
    push_neg at hk
    simp only [List.foldl_cons]
    rw [ih _ _ hk.2, dget_dset_ne _ _ _ _ hk.1]

theorem dget_foldl_entry (oracle : String → String → OrgOutcome)
    (orgs : List (String × String)) :
    ∀ acc : List (String × OrgEntry), (orgs.map Prod.fst).Nodup →
      ∀ p ∈ orgs,
      dget (orgs.foldl
          (fun acc q => dset acc q.1 (orgEntryFor q.2 (oracle q.1 q.2)))
          acc) p.1 = some (orgEntryFor p.2 (oracle p.1 p.2)) := by
  induction orgs with
  | nil => intro acc _ p hp; cases hp
  | cons q rest ih =>
    intro acc hn p hp
    simp only [List.map_cons, List.nodup_cons] at hn
    simp only [List.foldl_cons]
    rcases List.mem_cons.mp hp with rfl | hp2
    · rw [dget_foldl_entry_notin oracle rest _ _ hn.1]
      exact dget_dset_self _ _ _
    · exact ih _ hn.2 p hp2

/-! ## Snapshot-writer lemmas -/

theorem readFS_removeFS_self (fs : FS) (p : FPath) :
    readFS (removeFS fs p) p = none := by
  induction fs with
  | nil => rfl
  | cons kv rest ih =>
    obtain ⟨a, b⟩ := kv
    simp only [readFS, removeFS] at ih ⊢
    by_cases h : a = p
    · simpa [List.filter_cons, h] using ih
    · have hne : (a != p) = true := by simp [h]
      rw [List.filter_cons]
      simp only [hne, if_true]
      rw [dget_cons_ne _ _ _ _ h]
      exact ih

theorem readFS_removeFS_ne (fs : FS) (p q : FPath) (h : q ≠ p) :
    readFS (removeFS fs p) q = readFS fs q := by
  induction fs with
  | nil => rfl
  | cons kv rest ih =>
    obtain ⟨a, b⟩ := kv
    simp only [readFS, removeFS] at ih ⊢
    by_cases ha : a = p
    · subst ha
      have hq : ¬ a = q := fun e => h e.symm
      have hself : (a != a) = false := by simp
      rw [List.filter_cons]
      simp only [hself, Bool.false_eq_true, if_false]
      rw [dget_cons_ne _ _ _ _ hq]
      exact ih
    · have hne : (a != p) = true := by simp [ha]
      rw [List.filter_cons]
      simp only [hne, if_true]
      by_cases haq : a = q
      · subst haq
        rw [dget_cons_self, dget_cons_self]
      · rw [dget_cons_ne _ _ _ _ haq, dget_cons_ne _ _ _ _ haq]
        exact ih

/-! ## The claims -/

/-- Claim C4: with the default retry budget of 3, a fetch whose successive
attempts yield HTTP statuses 429, 429, 200 returns the third attempt's
response, having slept exactly `RETRY_DELAY * 1 = 10` seconds after the
first attempt and `RETRY_DELAY * 2 = 20` seconds after the second
(attempt-indexed linear backoff), with no sleep after the successful
attempt. -/
theorem claim_C4 :
    fetch_api_with_retry MAX_RETRIES
        [.status 429, .status 429, .status 200] =
      ⟨some 3, [RETRY_DELAY * 1, RETRY_DELAY * 2], 3⟩ := by
  decide

/-- Claim C3 counterexample: a 204 status (no other status of the claim's
class behaves differently below 400) does not make the fetcher fail
immediately: with budget 3 it performs all three attempts (three HTTP
requests) before returning failure, refuting "it performs no further retry
attempt". -/
theorem claim_C3_counterexample :
    fetch_api_with_retry MAX_RETRIES
        (List.replicate MAX_RETRIES (.status 204)) = ⟨none, [], 3⟩ ∧
    (fetch_api_with_retry MAX_RETRIES
        (List.replicate MAX_RETRIES (.status 204))).requests ≠ 1 := by
  decide

/-- Claim C3 (amended): a status in 400..499 other than 404 and 429 makes
the fetcher fail immediately on that attempt — one request, no sleep, no
retry; but a non-200 status below 400 (1xx, other 2xx, 3xx) is silently
retried with no backoff sleep until the budget is exhausted, returning
failure after `max_retries` requests.  In both cases the failure is
absorbed by `get_structure_by_organization` as zero leagues. -/
theorem claim_C3 :
    (∀ (c : Nat) (rest : List AttemptOutcome) (mr : Nat),
        400 ≤ c → c < 500 → c ≠ 404 → c ≠ 429 → 0 < mr →
        fetch_api_with_retry mr (.status c :: rest) = ⟨none, [], 1⟩) ∧
    (∀ (c mr : Nat), c < 400 → c ≠ 200 →
        fetch_api_with_retry mr (List.replicate mr (.status c)) =
          ⟨none, [], mr⟩) ∧
    get_structure_by_organization .fetchFailed = [] := by
  refine ⟨?_, ?_, rfl⟩
  · intro c rest mr h1 h2 h3 h4 h5
    obtain ⟨mr2, rfl⟩ : ∃ k, mr = k + 1 := ⟨mr - 1, by omega⟩
    show fetchGo (.status c :: rest) 1 (mr2 + 1) = ⟨none, [], 1⟩
    have hget : (AttemptOutcome.status c :: rest).getD (1 - 1) .reqError =
        .status c := rfl
    simp only [fetchGo, hget, if_neg (show ¬ c = 200 by omega),
      if_neg (show ¬ (c = 429 ∨ c = 503 ∨ 500 ≤ c) by omega),
      if_neg h3, if_pos h1]
  · intro c mr h1 h2
    refine fetchGo_fallthrough c h1 h2 _ mr 1 le_rfl ?_
    intro j hj
    have h0 : (1 : Nat) - 1 + j = j := by omega
    rw [h0]
    exact getD_replicate_of_lt mr j _ _ hj

/-- Claim C3 witness: a 403 fails on the first attempt with one request and
no sleep; a 301 with budget 2 is retried and fails after two requests with
no sleep. -/
theorem claim_C3_witness :
    fetch_api_with_retry 3 [.status 403] = ⟨none, [], 1⟩ ∧
    fetch_api_with_retry 2 (List.replicate 2 (.status 301)) =
      ⟨none, [], 2⟩ :=
  ⟨claim_C3.1 403 [] 3 (by decide) (by decide) (by decide) (by decide)
      (by decide),
   claim_C3.2.1 301 2 (by decide) (by decide)⟩

/-- Claim C8: every league entry of the aggregated output carries the name
from the first match of the batch that mentioned that league id; later
names never overwrite it. -/
theorem claim_C8 (ms : List J) (lid : J) (lout : LeagueOut)
    (h : dget (get_structure_by_organization (.decoded (J.arr ms))) lid =
      some lout) :
    some lout.name = (ms.find? (mentionsLeague lid)).map leagueNameOf := by
  have h2 : dget (aggregateOut ms) lid = some lout := h
  rw [dget_aggregateOut] at h2
  rcases Option.map_eq_some'.mp h2 with ⟨rec, hrec, rfl⟩
  rw [dget_aggregate] at hrec
  exact (aggLeague_name lid ms rec hrec).symm

/-- Claim C8 witness: with two matches naming league 1 "first" and then
"second", the output league keeps the name of the first mention. -/
theorem claim_C8_witness :
    some (LeagueOut.name ⟨J.num 1, J.str "first",
        [[("id", J.num 100), ("name", J.str "Tigers")]]⟩) =
      ([homeMatch "first" [], homeMatch "second" []].find?
        (mentionsLeague (J.num 1))).map leagueNameOf :=
  claim_C8 [homeMatch "first" [], homeMatch "second" []] (J.num 1)
    ⟨J.num 1, J.str "first", [[("id", J.num 100), ("name", J.str "Tigers")]]⟩
    (by decide)

/-- Claim C9: the teams sequence of every league in the aggregated output
is sorted ascending by the sort key `x.get('id', 0)` (the key falls back
to 0 for a record lacking an id), regardless of arrival order. -/
theorem claim_C9 (ms : List J) (lid : J) (lout : LeagueOut)
    (h : dget (get_structure_by_organization (.decoded (J.arr ms))) lid =
      some lout) :
    lout.teams.Sorted teamLE := by
  have h2 : dget (aggregateOut ms) lid = some lout := h
  rw [dget_aggregateOut] at h2
  rcases Option.map_eq_some'.mp h2 with ⟨rec, hrec, rfl⟩
  exact List.sorted_insertionSort teamLE _

/-- Claim C9 witness: team ids arrive as 200 then 100 and the output is
sorted 100 then 200. -/
theorem claim_C9_witness :
    (LeagueOut.teams ⟨J.num 1, J.str "L",
        [[("id", J.num 100), ("name", J.str "Ants")],
         [("id", J.num 200), ("name", J.str "Bears")]]⟩).Sorted teamLE :=
  claim_C9 [twoTeamsMatch] (J.num 1)
    ⟨J.num 1, J.str "L",
      [[("id", J.num 100), ("name", J.str "Ants")],
       [("id", J.num 200), ("name", J.str "Bears")]]⟩
    (by decide)

/-- Claim C10: presence of league and team ids is tested by truthiness: a
match whose league id is present but falsy is skipped entirely (no league
entry is created), exactly like a match with no league id; a side entry
whose team id is present but falsy is dropped, exactly like one with no
team id. -/
theorem claim_C10 :
    (∀ (ld : List (J × LeagueRec)) (m : J) (lid : J),
        leagueIdOf m = some lid → truthy lid = false →
        processMatch ld m = ld) ∧
    (∀ (ld : List (J × LeagueRec)) (m : J),
        leagueIdOf m = none → processMatch ld m = ld) ∧
    (∀ (ts : List (J × TeamD)) (e : Option J) (tid : J),
        teamIdOf e = some tid → truthy tid = false →
        processEntry ts e = ts) ∧
    (∀ (ts : List (J × TeamD)) (e : Option J),
        teamIdOf e = none → processEntry ts e = ts) := by
  refine ⟨?_, ?_, ?_, ?_⟩
  · intro ld m lid hlid ht
    cases m with
    | obj mf =>
      cases hlg : truthyObj (dget mf "league") with
      | none => simp [leagueIdOf, leagueObjOf, hlg] at hlid
      | some league =>
        have hid : dget league "id" = some lid := by
          simpa [leagueIdOf, leagueObjOf, hlg] using hlid
        simp [processMatch, hlg, hid, ht]
    | null => rfl
    | bool b => rfl
    | num n => rfl
    | str s => rfl
    | arr xs => rfl
  · intro ld m hlid
    cases m with
    | obj mf =>
      cases hlg : truthyObj (dget mf "league") with
      | none => simp [processMatch, hlg]
      | some league =>
        have hid : dget league "id" = none := by
          simpa [leagueIdOf, leagueObjOf, hlg] using hlid
        simp [processMatch, hlg, hid]
    | null => rfl
    | bool b => rfl
    | num n => rfl
    | str s => rfl
    | arr xs => rfl
  · intro ts e tid hid ht
    cases hto : truthyObj e with
    | none => simp [teamIdOf, hto] at hid
    | some e2 =>
      cases htt : truthyObj (dget e2 "team") with
      | none => simp [teamIdOf, hto, htt] at hid
      | some team =>
        have h3 : dget team "id" = some tid := by
          simpa [teamIdOf, hto, htt] using hid
        simp [processEntry, sideSnap, hto, htt, h3, ht]
  · intro ts e hid
    cases hto : truthyObj e with
    | none => simp [processEntry, sideSnap, hto]
    | some e2 =>
      cases htt : truthyObj (dget e2 "team") with
      | none => simp [processEntry, sideSnap, hto, htt]
      | some team =>
        have h3 : dget team "id" = none := by
          simpa [teamIdOf, hto, htt] using hid
        simp [processEntry, sideSnap, hto, htt, h3]

/-- Claim C10 witness: a league id of 0 and a team id of the empty string
are treated like absent ids. -/
theorem claim_C10_witness :
    processMatch []
        (J.obj [("league", J.obj [("id", J.num 0), ("name", J.str "L")])]) =
      [] ∧
    processEntry []
        (some (J.obj [("team",
          J.obj [("id", J.str ""), ("name", J.str "T")])])) = [] :=
  ⟨claim_C10.1 [] _ (J.num 0) (by decide) (by decide),
   claim_C10.2.2.1 [] _ (J.str "") (by decide) (by decide)⟩

/-- Claim C1 counterexample: the club attribution is not computed from the
distinct club payloads seen across the batch.  With a single match whose
team carries the clubs array `[clubNine, clubNine]` — exactly one distinct
club payload, repeated — the output team record carries a `clubs` sequence
of length 2 and no singular `club` field; and with two matches carrying
the distinct payloads `clubNine` then `clubTen`, the output record carries
the singular `club` of the last occurrence only, not a `clubs` sequence of
length 2. -/
theorem claim_C1_counterexample :
    (dget (get_structure_by_organization
        (.decoded (J.arr [homeMatch "L" [clubNine, clubNine]]))) (J.num 1) =
      some ⟨J.num 1, J.str "L",
        [[("id", J.num 100), ("name", J.str "Tigers"),
          ("clubs", J.arr [clubNineRec, clubNineRec])]]⟩) ∧
    (dget [("id", J.num 100), ("name", J.str "Tigers"),
        ("clubs", J.arr [clubNineRec, clubNineRec])] "club" = none) ∧
    (dget (get_structure_by_organization
        (.decoded (J.arr [homeMatch "L" [clubNine],
          homeMatch "L" [clubTen]]))) (J.num 1) =
      some ⟨J.num 1, J.str "L",
        [[("id", J.num 100), ("name", J.str "Tigers"),
          ("club", clubTenRec)]]⟩) ∧
    (dget [("id", J.num 100), ("name", J.str "Tigers"),
        ("club", clubTenRec)] "clubs" = none) := by
  decide

/-- Claim C1 (amended): every team record of the aggregated output is the
snapshot `mkTeamData` of one occurrence, and its club fields come from
that occurrence's clubs array alone, without deduplication: a filtered
club list of length exactly 1 is stored under the singular `club` field, a
list of length 2 or more is stored in full order under `clubs` (identical
payloads are not collapsed), and an empty list yields neither field. -/
theorem claim_C1 (ms : List J) (lid : J) (lout : LeagueOut) (td : TeamD)
    (h : dget (get_structure_by_organization (.decoded (J.arr ms))) lid =
      some lout)
    (htd : td ∈ lout.teams) :
    ∃ tid team, td = mkTeamData tid team ∧
      (clubsListOf team = [] →
        dget td "club" = none ∧ dget td "clubs" = none) ∧
      (∀ c, clubsListOf team = [c] →
        dget td "club" = some c ∧ dget td "clubs" = none) ∧
      (2 ≤ (clubsListOf team).length →
        dget td "club" = none ∧
        dget td "clubs" = some (J.arr (clubsListOf team))) := by
  have h2 : dget (aggregateOut ms) lid = some lout := h
  rw [dget_aggregateOut] at h2
  rcases Option.map_eq_some'.mp h2 with ⟨rec, hrec, rfl⟩
  rcases (finalize_teams_mem rec td).mp htd with ⟨k, hk⟩
  rcases rec_teams_mem_shape lid ms rec hrec (k, td) hk with
    ⟨htr, team, hteam⟩
  have hteam2 : td = mkTeamData k team := hteam
  clear hteam
  subst hteam2
  exact ⟨k, team, rfl, (mkTeamData_club_fields k team).1,
    (mkTeamData_club_fields k team).2.1,
    (mkTeamData_club_fields k team).2.2⟩

/-- Claim C1 witness: the record for team 100, written by the occurrence
with clubs array `[clubTen]`, has the singular `club` field. -/
theorem claim_C1_witness :
    ∃ tid team,
      ([("id", J.num 100), ("name", J.str "Tigers"),
        ("club", clubTenRec)] : TeamD) = mkTeamData tid team ∧
      (clubsListOf team = [] →
        dget ([("id", J.num 100), ("name", J.str "Tigers"),
          ("club", clubTenRec)] : TeamD) "club" = none ∧
        dget ([("id", J.num 100), ("name", J.str "Tigers"),
          ("club", clubTenRec)] : TeamD) "clubs" = none) ∧
      (∀ c, clubsListOf team = [c] →
        dget ([("id", J.num 100), ("name", J.str "Tigers"),
          ("club", clubTenRec)] : TeamD) "club" = some c ∧
        dget ([("id", J.num 100), ("name", J.str "Tigers"),
          ("club", clubTenRec)] : TeamD) "clubs" = none) ∧
      (2 ≤ (clubsListOf team).length →
        dget ([("id", J.num 100), ("name", J.str "Tigers"),
          ("club", clubTenRec)] : TeamD) "club" = none ∧
        dget ([("id", J.num 100), ("name", J.str "Tigers"),
          ("club", clubTenRec)] : TeamD) "clubs" =
          some (J.arr (clubsListOf team))) :=
  claim_C1 [homeMatch "L" [clubNine], homeMatch "L" [clubTen]] (J.num 1)
    ⟨J.num 1, J.str "L",
      [[("id", J.num 100), ("name", J.str "Tigers"), ("club", clubTenRec)]]⟩
    [("id", J.num 100), ("name", J.str "Tigers"), ("club", clubTenRec)]
    (by decide) (by decide)

/-- Claim C2: within a league, the output record of a team id is exactly
the snapshot written by the last occurrence of that team id (home or away)
among the matches of that league — last write wins over all attributes; in
particular a team seen first with club A and later with club B shows club
B only. -/
theorem claim_C2 (ms : List J) (lid : J) (lout : LeagueOut) (td : TeamD)
    (tid : J)
    (h : dget (get_structure_by_organization (.decoded (J.arr ms))) lid =
      some lout)
    (htd : td ∈ lout.teams) (hid : dget td "id" = some tid) :
    (teamWrites lid tid ms).getLast? = some td := by
  have h2 : dget (aggregateOut ms) lid = some lout := h
  rw [dget_aggregateOut] at h2
  rcases Option.map_eq_some'.mp h2 with ⟨rec, hrec, rfl⟩
  rcases (finalize_teams_mem rec td).mp htd with ⟨k, hk⟩
  rcases rec_teams_mem_shape lid ms rec hrec (k, td) hk with
    ⟨htr, team, hteam⟩
  have hteam2 : td = mkTeamData k team := hteam
  have hidk : dget td "id" = some k := by
    rw [hteam2]; exact mkTeamData_id k team
  rw [hidk] at hid
  injection hid with hkt
  subst hkt
  have hnod := rec_teams_keysNodup lid ms rec hrec
  have hget : dget rec.teams k = some td :=
    dget_eq_of_mem_nodup _ _ _ hnod hk
  have hlast := dget_teams_lastWrite lid k ms rec hrec
  rw [hget] at hlast
  unfold teamWrites
  rw [List.getLast?_map]
  exact hlast.symm

/-- Claim C2 witness: team 100 appears with club Nine and then with club
Ten; the last write carries club Ten and equals the output record. -/
theorem claim_C2_witness :
    (teamWrites (J.num 1) (J.num 100)
        [homeMatch "L" [clubNine], homeMatch "L" [clubTen]]).getLast? =
      some [("id", J.num 100), ("name", J.str "Tigers"),
        ("club", clubTenRec)] :=
  claim_C2 [homeMatch "L" [clubNine], homeMatch "L" [clubTen]] (J.num 1)
    ⟨J.num 1, J.str "L",
      [[("id", J.num 100), ("name", J.str "Tigers"), ("club", clubTenRec)]]⟩
    [("id", J.num 100), ("name", J.str "Tigers"), ("club", clubTenRec)]
    (J.num 100) (by decide) (by decide) (by decide)

/-- Claim C5: an organization is counted successful exactly when its
league mapping is non-empty and failed otherwise (fetch failures and
zero-league responses included), and every configured organization appears
in the output's organizations mapping — with an empty league mapping when
it failed, never omitted. -/
theorem claim_C5 (orgs : List (String × String))
    (oracle : String → String → OrgOutcome)
    (hn : (orgs.map Prod.fst).Nodup) :
    (build_structure orgs oracle).metadata.successful_organizations =
        (orgs.filter (fun p => orgSuccess (oracle p.1 p.2))).length ∧
    (build_structure orgs oracle).metadata.failed_organizations =
        (orgs.filter (fun p => !orgSuccess (oracle p.1 p.2))).length ∧
    ∀ p ∈ orgs,
      dget (build_structure orgs oracle).organizations p.1 =
        some (orgEntryFor p.2 (oracle p.1 p.2)) ∧
      (orgSuccess (oracle p.1 p.2) = false →
        (orgEntryFor p.2 (oracle p.1 p.2)).leagues = []) := by
  obtain ⟨h1, h2, h3⟩ := build_meta oracle orgs ⟨[], ⟨orgs.length, 0, 0⟩⟩
  refine ⟨by simpa using h2, by simpa using h3, ?_⟩
  intro p hp
  constructor
  · show dget (build_structure orgs oracle).organizations p.1 = _
    unfold build_structure
    rw [build_orgs]
    exact dget_foldl_entry oracle orgs _ hn p hp
  · intro hfail
    cases ho : oracle p.1 p.2 with
    | ok ls =>
      rw [ho] at hfail
      have hls : ls = [] := by simpa [orgSuccess] using hfail
      simp [orgEntryFor, hls]
    | exn m => simp [orgEntryFor]

/-- Claim C5 witness: of the three demo organizations, only A (one league)
is successful; B (zero leagues) and C (exception) are failed, and B still
appears with an empty league mapping. -/
theorem claim_C5_witness :
    (build_structure demoOrgs demoOracle).metadata.successful_organizations
        = 1 ∧
    (build_structure demoOrgs demoOracle).metadata.failed_organizations
        = 2 ∧
    dget (build_structure demoOrgs demoOracle).organizations "B" =
      some ⟨"2", [], none⟩ := by
  obtain ⟨h1, h2, h3⟩ := claim_C5 demoOrgs demoOracle (by decide)
  exact ⟨h1.trans (by decide), h2.trans (by decide),
    ((h3 ("B", "2") (by decide)).1).trans (by decide)⟩

/-- Claim C7: an exception raised while processing one organization is
caught at the builder boundary: the organization is recorded with an
empty league mapping and an error annotation, every organization of the
run (the subsequent ones included) still gets exactly its own
independently-determined entry, and the failed counter is positive. -/
theorem claim_C7 (orgs : List (String × String))
    (oracle : String → String → OrgOutcome) (n i msg : String)
    (hn : (orgs.map Prod.fst).Nodup) (hmem : (n, i) ∈ orgs)
    (hex : oracle n i = .exn msg) :
    dget (build_structure orgs oracle).organizations n =
      some ⟨i, [], some msg⟩ ∧
    (∀ p ∈ orgs,
      dget (build_structure orgs oracle).organizations p.1 =
        some (orgEntryFor p.2 (oracle p.1 p.2))) ∧
    1 ≤ (build_structure orgs oracle).metadata.failed_organizations := by
  have hentry : ∀ p ∈ orgs,
      dget (build_structure orgs oracle).organizations p.1 =
        some (orgEntryFor p.2 (oracle p.1 p.2)) := by
    intro p hp
    show dget (build_structure orgs oracle).organizations p.1 = _
    unfold build_structure
    rw [build_orgs]
    exact dget_foldl_entry oracle orgs _ hn p hp
  refine ⟨?_, hentry, ?_⟩
  · have h2 : dget (build_structure orgs oracle).organizations n =
        some (orgEntryFor i (oracle n i)) := hentry (n, i) hmem
    rw [hex] at h2
    exact h2
  · obtain ⟨h1, h2, h3⟩ := build_meta oracle orgs ⟨[], ⟨orgs.length, 0, 0⟩⟩
    have hcount :
        (build_structure orgs oracle).metadata.failed_organizations =
          (orgs.filter (fun p => !orgSuccess (oracle p.1 p.2))).length := by
      simpa using h3
    rw [hcount]
    have hmemf : (n, i) ∈
        orgs.filter (fun p => !orgSuccess (oracle p.1 p.2)) := by
      refine List.mem_filter.mpr ⟨hmem, ?_⟩
      simp [hex, orgSuccess]
    exact List.length_pos_of_mem hmemf

/-- Claim C7 witness: organization C's exception is recorded with an empty
league mapping and the error message; the failed counter is positive. -/
theorem claim_C7_witness :
    dget (build_structure demoOrgs demoOracle).organizations "C" =
      some ⟨"3", [], some "boom"⟩ ∧
    1 ≤ (build_structure demoOrgs demoOracle).metadata.failed_organizations
    := by
  obtain ⟨h1, h2, h3⟩ := claim_C7 demoOrgs demoOracle "C" "3" "boom"
    (by decide) (by decide) (by decide)
  exact ⟨h1, h3⟩

/-- Claim C6 counterexample: with a prior snapshot "old" on disk, a
failure of the final rename (after the temporary file was written and the
old snapshot removed) returns failure and leaves the output path with no
file at all: the prior snapshot is not preserved. -/
theorem claim_C6_counterexample :
    (save_structure 2025 [(FPath.outFile 2025, FileContent.whole "old")]
        "new" SaveFail.atRename).2 = false ∧
    readFS (finalFS (save_structure 2025
        [(FPath.outFile 2025, FileContent.whole "old")]
        "new" SaveFail.atRename)) (FPath.outFile 2025) = none ∧
    readFS [(FPath.outFile 2025, FileContent.whole "old")]
        (FPath.outFile 2025) = some (FileContent.whole "old") := by
  decide

/-- Claim C6 (amended): a reader of the output path only ever observes the
prior snapshot, no file, or the complete new snapshot — never a truncated
one; a failure before the removal of the old snapshot (early failure,
temp-write failure, remove failure) leaves the prior snapshot in place and
success installs the new one; but a rename failure after the removal
leaves the output path empty, losing the prior snapshot. -/
theorem claim_C6 (year : Int) (fs0 : FS) (doc : String) (f : SaveFail) :
    (∀ s ∈ (save_structure year fs0 doc f).1,
        readFS s (.outFile year) = readFS fs0 (.outFile year) ∨
        readFS s (.outFile year) = none ∨
        readFS s (.outFile year) = some (.whole doc)) ∧
    ((save_structure year fs0 doc f).2 = false → f ≠ .atRename →
        readFS (finalFS (save_structure year fs0 doc f)) (.outFile year) =
          readFS fs0 (.outFile year)) ∧
    ((save_structure year fs0 doc f).2 = true →
        readFS (finalFS (save_structure year fs0 doc f)) (.outFile year) =
          some (.whole doc)) ∧
    ((∀ d, readFS fs0 (.outFile year) ≠ some (.truncated d)) →
        ∀ s ∈ (save_structure year fs0 doc f).1, ∀ d,
          readFS s (.outFile year) ≠ some (.truncated d)) := by
  have hnep : (FPath.outFile year) ≠ (FPath.tmpFile year) := by simp
  have htmp : ∀ (fs : FS) (c : FileContent),
      readFS (writeFS fs (.tmpFile year) c) (.outFile year) =
        readFS fs (.outFile year) := fun fs c =>
    dget_dset_ne fs (.tmpFile year) (.outFile year) c hnep
  have hout : ∀ (fs : FS) (c : FileContent),
      readFS (writeFS fs (.outFile year) c) (.outFile year) = some c :=
    fun fs c => dget_dset_self fs _ c
  have hobs : ∀ s ∈ (save_structure year fs0 doc f).1,
      readFS s (.outFile year) = readFS fs0 (.outFile year) ∨
      readFS s (.outFile year) = none ∨
      readFS s (.outFile year) = some (.whole doc) := by
    intro s hs
    cases f with
    | beforeWrite =>
      simp only [save_structure, List.mem_singleton] at hs
      subst hs
      exact Or.inl rfl
    | duringWrite =>
      simp only [save_structure, List.mem_cons, List.mem_singleton,
        List.not_mem_nil, or_false] at hs
      rcases hs with rfl | rfl
      · exact Or.inl rfl
      · exact Or.inl (htmp fs0 _)
    | noFail =>
      simp only [save_structure, List.mem_cons, List.not_mem_nil,
        or_false] at hs
      rcases hs with rfl | rfl | rfl | rfl
      · exact Or.inl rfl
      · exact Or.inl (htmp fs0 _)
      · by_cases hp : (readFS (writeFS fs0 (.tmpFile year) (.whole doc))
            (.outFile year)).isSome
        · rw [if_pos hp]
          exact Or.inr (Or.inl (readFS_removeFS_self _ _))
        · rw [if_neg hp]
          exact Or.inl (htmp fs0 _)
      · exact Or.inr (Or.inr (hout _ _))
    | atRemove =>
      cases hprior : readFS fs0 (.outFile year) with
      | some v =>
        simp only [save_structure, hprior, List.mem_cons,
          List.mem_singleton, List.not_mem_nil, or_false] at hs
        rcases hs with rfl | rfl
        · exact Or.inl hprior
        · exact Or.inl ((htmp fs0 _).trans hprior)
      | none =>
        simp only [save_structure, hprior, List.mem_cons,
          List.not_mem_nil, or_false] at hs
        rcases hs with rfl | rfl | rfl | rfl
        · exact Or.inl hprior
        · exact Or.inl ((htmp fs0 _).trans hprior)
        · by_cases hp : (readFS (writeFS fs0 (.tmpFile year) (.whole doc))
              (.outFile year)).isSome
          · rw [if_pos hp]
            exact Or.inr (Or.inl (readFS_removeFS_self _ _))
          · rw [if_neg hp]
            exact Or.inl ((htmp fs0 _).trans hprior)
        · exact Or.inr (Or.inr (hout _ _))
    | atRename =>
      simp only [save_structure, List.mem_cons, List.not_mem_nil,
        or_false] at hs
      rcases hs with rfl | rfl | rfl
      · exact Or.inl rfl
      · exact Or.inl (htmp fs0 _)
      · by_cases hp : (readFS (writeFS fs0 (.tmpFile year) (.whole doc))
            (.outFile year)).isSome
        · rw [if_pos hp]
          exact Or.inr (Or.inl (readFS_removeFS_self _ _))
        · rw [if_neg hp]
          exact Or.inl (htmp fs0 _)
  refine ⟨hobs, ?_, ?_, ?_⟩
  · intro hfalse hnotrename
    cases f with
    | beforeWrite => rfl
    | duringWrite => exact htmp fs0 _
    | noFail => simp [save_structure] at hfalse
    | atRemove =>
      cases hprior : readFS fs0 (.outFile year) with
      | some v =>
        simp only [save_structure, hprior, finalFS, List.getLastD]
        exact (htmp fs0 _).trans hprior
      | none => simp [save_structure, hprior] at hfalse
    | atRename => exact absurd rfl hnotrename
  · intro htrue
    cases f with
    | beforeWrite => simp [save_structure] at htrue
    | duringWrite => simp [save_structure] at htrue
    | noFail =>
      simp only [save_structure, finalFS, List.getLastD]
      exact hout _ _
    | atRemove =>
      cases hprior : readFS fs0 (.outFile year) with
      | some v => simp [save_structure, hprior] at htrue
      | none =>
        simp only [save_structure, hprior, finalFS, List.getLastD]
        exact hout _ _
    | atRename => simp [save_structure] at htrue
  · intro h0 s hs d
    rcases hobs s hs with h | h | h
    · rw [h]; exact h0 d
    · rw [h]; exact fun e => Option.noConfusion e
    · rw [h]
      intro e
      cases (Option.some.injEq _ _ ▸ e : FileContent.whole doc
        = FileContent.truncated d)

/-- Claim C6 witness: when writing the temporary file fails with a prior
snapshot "old" on disk, the call fails and the output path still holds the
prior snapshot. -/
theorem claim_C6_witness :
    readFS (finalFS (save_structure 2025
        [(FPath.outFile 2025, FileContent.whole "old")] "new"
        SaveFail.duringWrite)) (FPath.outFile 2025) =
      readFS [(FPath.outFile 2025, FileContent.whole "old")]
        (FPath.outFile 2025) :=
  (claim_C6 2025 [(FPath.outFile 2025, FileContent.whole "old")] "new"
      SaveFail.duringWrite).2.1 (by decide) (by decide)

end BSM
